import Mathlib

/-!
Verification development for the msgpack.js encoder (repository AlexMasterov/msgpack.js).

The repository ships two near-identical encoder variants:
  src/dist/v8v62/cjs/Encoder.js  (here: unsuffixed names, e.g. encodeInt)
  src/dist/v8-6.2/Encoder.js     (here: names suffixed V862, e.g. encodeIntV862)
The two variants differ only in the out-of-safe-range integer fallback literals of
encodeInt and in configuration-key spellings.

Values are modelled as follows: a JavaScript binary string (the encoders build
strings of char codes 0..255) is a List Nat of byte values; a JavaScript source
string is a List Nat of UTF-16 code units.  JavaScript number semantics that the
encoder relies on (ToInt32/ToUint32 coercions performed by the bitwise operators,
truncating division of `x / 0x100000000 >> 0`) are modelled explicitly on Int.
-/

/-- ToUint32: JavaScript coercion applied by the unsigned shift operator.
Models `x >>> 0`. -/
def jsToUint32 (x : Int) : Int := x.emod 4294967296

/-- ToInt32: JavaScript coercion applied by the signed bitwise operators,
for example `x >> 0`. -/
def jsToInt32 (x : Int) : Int :=
  let r := x.emod 4294967296
  if r < 2147483648 then r else r - 4294967296

/-- Models the JavaScript byte extraction `x >> s & 0xff` (and `x >>> s & 0xff`).
Both operands are first coerced through ToInt32/ToUint32, which agree modulo 2^32;
for the shift amounts used by the encoder (0, 8, 16, 24) the extracted byte equals
the byte of x mod 2^32 at position s. -/
def jsByte (x : Int) (s : Nat) : Nat :=
  ((x.emod 4294967296).toNat >>> s) % 256

/-- Embedding of the local function encodeInt64(hi, lo) of
src/dist/v8-6.2/Encoder.js lines 342-351 (the v8v62 variant imports the same
function from its encoders module): eight CHR lookups of the bytes of hi and lo. -/
def encodeInt64 (hi lo : Int) : List Nat :=
  [jsByte hi 24, jsByte hi 16, jsByte hi 8, jsByte hi 0,
   jsByte lo 24, jsByte lo 16, jsByte lo 8, jsByte lo 0]

/-- Embedding of Encoder.encodeInt of src/dist/v8v62/cjs/Encoder.js (lines 76-145).
Branch conditions and byte computations mirror the source line by line; CHR[b] is
the single byte b.  The int64 high word is `(num / 0x100000000 >> 0) - 1` (float
division is exact for |num| <= 2^53, `>> 0` truncates toward zero and wraps to
int32), the uint64 high word is `num >>> 11 | 1`. -/
def encodeInt (num : Int) : List Nat :=
  if num < 0 then
    if num > -0x21 then
      [jsByte num 0]
    else if num > -0x81 then
      [0xd0, jsByte num 0]
    else if num > -0x8001 then
      [0xd1, jsByte num 8, jsByte num 0]
    else if num > -0x80000001 then
      [0xd2, jsByte num 24, jsByte num 16, jsByte num 8, jsByte num 0]
    else if num > -0x20000000000001 then
      0xd3 :: encodeInt64 (jsToInt32 (num.tdiv 0x100000000) - 1) (jsToUint32 num)
    else
      [0xcb, 0xff, 0xf0, 0x00, 0x00, 0x00, 0x00, 0x00, 0x00]
  else if num < 0x80 then
    [num.toNat]
  else if num < 0x100 then
    [0xcc, num.toNat]
  else if num < 0x10000 then
    [0xcd, num.toNat >>> 8, num.toNat &&& 0xff]
  else if num < 0x100000000 then
    [0xce, num.toNat >>> 24 &&& 0xff, num.toNat >>> 16 &&& 0xff,
     num.toNat >>> 8 &&& 0xff, num.toNat &&& 0xff]
  else if num < 0x20000000000000 then
    0xcf :: encodeInt64 (((jsToUint32 num).toNat >>> 11 ||| 1 : Nat) : Int) num
  else
    [0xcb, 0x7f, 0xf0, 0x00, 0x00, 0x00, 0x00, 0x00, 0x00]

/-- Embedding of Encoder.encodeInt of src/dist/v8-6.2/Encoder.js (lines 75-144).
Identical to the v8v62 variant except for the two out-of-safe-range fallback
literals: tag 0xd3 with bytes ff df ff ff ff ff ff ff for large negatives, and
tag 0xcf with bytes 00 20 00 00 00 00 00 00 for large positives. -/
def encodeIntV862 (num : Int) : List Nat :=
  if num < 0 then
    if num > -0x21 then
      [jsByte num 0]
    else if num > -0x81 then
      [0xd0, jsByte num 0]
    else if num > -0x8001 then
      [0xd1, jsByte num 8, jsByte num 0]
    else if num > -0x80000001 then
      [0xd2, jsByte num 24, jsByte num 16, jsByte num 8, jsByte num 0]
    else if num > -0x20000000000001 then
      0xd3 :: encodeInt64 (jsToInt32 (num.tdiv 0x100000000) - 1) (jsToUint32 num)
    else
      [0xd3, 0xff, 0xdf, 0xff, 0xff, 0xff, 0xff, 0xff, 0xff]
  else if num < 0x80 then
    [num.toNat]
  else if num < 0x100 then
    [0xcc, num.toNat]
  else if num < 0x10000 then
    [0xcd, num.toNat >>> 8, num.toNat &&& 0xff]
  else if num < 0x100000000 then
    [0xce, num.toNat >>> 24 &&& 0xff, num.toNat >>> 16 &&& 0xff,
     num.toNat >>> 8 &&& 0xff, num.toNat &&& 0xff]
  else if num < 0x20000000000000 then
    0xcf :: encodeInt64 (((jsToUint32 num).toNat >>> 11 ||| 1 : Nat) : Int) num
  else
    [0xcf, 0x00, 0x20, 0x00, 0x00, 0x00, 0x00, 0x00, 0x00]

/-- Modelled from the spec: the Decoder is not under src/ (only the encoders are).
Spec section 4.2: the decoder reads one tag byte and dispatches; for the int64 tag
0xd3 it reconstructs the 8-byte big-endian two's-complement integer, for the
uint64 tag 0xcf the 8-byte big-endian unsigned integer.  Only these two formats
are needed by the claims below. -/
def decodeMsgInt : List Nat → Option Int
  | [t, b0, b1, b2, b3, b4, b5, b6, b7] =>
    let u : Nat := ((((((b0 * 256 + b1) * 256 + b2) * 256 + b3) * 256 + b4)
      * 256 + b5) * 256 + b6) * 256 + b7
    if t = 0xd3 then
      some (if u < 9223372036854775808 then (u : Int) else (u : Int) - 18446744073709551616)
    else if t = 0xcf then
      some (u : Int)
    else none
  | _ => none

/-- Modelled from the spec: UTF-8 bytes of one scalar code point below 0x10000
(spec section 4.1, string encoding converts the text to its raw UTF-8 byte form;
the conversion itself lives in the external utf8-bin package and in the
runtime-provided Buffer.utf8Write, neither of which is repository code). -/
def utf8Bytes1 (c : Nat) : List Nat :=
  if c < 0x80 then [c]
  else if c < 0x800 then [0xc0 ||| (c >>> 6), 0x80 ||| (c &&& 0x3f)]
  else [0xe0 ||| (c >>> 12), 0x80 ||| ((c >>> 6) &&& 0x3f), 0x80 ||| (c &&& 0x3f)]

/-- Modelled from the spec: UTF-8 bytes of a supplementary code point given by a
surrogate pair of UTF-16 code units. -/
def utf8Bytes4 (hi lo : Nat) : List Nat :=
  let cp := 0x10000 + ((hi - 0xD800) <<< 10) + (lo - 0xDC00)
  [0xf0 ||| (cp >>> 18), 0x80 ||| ((cp >>> 12) &&& 0x3f),
   0x80 ||| ((cp >>> 6) &&& 0x3f), 0x80 ||| (cp &&& 0x3f)]

/-- UTF-8 bytes of U+FFFD, emitted for a lone surrogate code unit. -/
def replacementBytes : List Nat := [0xef, 0xbf, 0xbd]

/-- Modelled from the spec: the UTF-16 code units of a string, grouped into the
UTF-8 byte sequence of each encoded character (surrogate pairs produce one 4-byte
group, lone surrogates the U+FFFD bytes). -/
def utf8Chunks : List Nat → List (List Nat)
  | [] => []
  | [c] =>
    if 0xD800 ≤ c ∧ c ≤ 0xDFFF then [replacementBytes] else [utf8Bytes1 c]
  | c :: d :: rest =>
    if 0xD800 ≤ c ∧ c ≤ 0xDBFF then
      if 0xDC00 ≤ d ∧ d ≤ 0xDFFF then utf8Bytes4 c d :: utf8Chunks rest
      else replacementBytes :: utf8Chunks (d :: rest)
    else if 0xDC00 ≤ c ∧ c ≤ 0xDFFF then replacementBytes :: utf8Chunks (d :: rest)
    else utf8Bytes1 c :: utf8Chunks (d :: rest)

/-- Modelled from the spec: full UTF-8 conversion of a string, as performed by the
external utf8toBin on the short-string path. -/
def utf8Encode (s : List Nat) : List Nat := (utf8Chunks s).flatten

/-- Writes whole character byte-groups into a buffer of the given capacity,
stopping before the first group that does not fit.  This is the documented
behavior of the runtime's Buffer.utf8Write: it never writes a partial character
and returns how much was written. -/
def writeChunks (cap : Nat) : List (List Nat) → List Nat
  | [] => []
  | ch :: rest =>
    if ch.length ≤ cap then ch ++ writeChunks (cap - ch.length) rest else []

/-- Modelled from the spec: `this.buffer.utf8Write(str, 0)` followed by
`latin1Slice(0, len)` yields the UTF-8 bytes of str that fit into the buffer
capacity, truncated at a character boundary. -/
def utf8Write (cap : Nat) (s : List Nat) : List Nat := writeChunks cap (utf8Chunks s)

/-- Runtime values as dispatched by the `typeof value` switch of Encoder.encode.
Numbers are split by the `value % 1 === 0` test into integral numbers (vInt) and
non-integral numbers, the latter carried opaquely by their float64 bytes. -/
inductive JsValue where
  | vUndefined
  | vNull
  | vBool (b : Bool)
  | vInt (n : Int)
  | vFloat (bits : List Nat)
  | vStr (s : List Nat)
  | vArr (elems : List JsValue)
  | vBuf (bytes : List Nat)
  | vExt (t : Int) (bin : List Nat)
  | vObj (props : List (List Nat × JsValue))
  | vFunc
  | vSymbol

/-- The JavaScript `typeof` of each modelled value. -/
def typeofStr : JsValue → String
  | .vUndefined => "undefined"
  | .vNull => "object"
  | .vBool _ => "boolean"
  | .vInt _ => "number"
  | .vFloat _ => "number"
  | .vStr _ => "string"
  | .vArr _ => "object"
  | .vBuf _ => "object"
  | .vExt _ _ => "object"
  | .vObj _ => "object"
  | .vFunc => "function"
  | .vSymbol => "symbol"

/-- Embedding of src/src/errors/EncodingFailed.js: the error produced by
EncodingFailed.withValue carries the offending value and the `typeof` kind that
the source interpolates into its message string. -/
structure EncodingFailed where
  value : JsValue
  kind : String

/-- Embedding of EncodingFailed.withValue (src/src/errors/EncodingFailed.js
lines 5-11). -/
def EncodingFailed.withValue (v : JsValue) : EncodingFailed :=
  { value := v, kind := typeofStr v }

/-- Modelled from the spec: the default unsupported-value handler (the handlers
module is not under src/); spec section 7, the default handler raises
EncodingFailed immediately, built by EncodingFailed.withValue. -/
def throwsEncoderHandler (v : JsValue) : Except EncodingFailed (List Nat) :=
  .error (EncodingFailed.withValue v)

/-- A registered codec's encode entry, as called by Encoder.encode: it receives
the value and returns the encoded bytes or null. -/
abbrev Codec := JsValue → Option (List Nat)

/-- The Encoder configuration fields exercised by the claims, named as in
src/dist/v8v62/cjs/Encoder.js (bufferLenMin, bufferAllocMin); the codecs field is
false (none) or a list, and handler is the unsupported-value handler.  The float
precision, objectKey, objectCase and arrayCase options keep their defaults in
this embedding. -/
structure EncoderConfig where
  bufferLenMin : Nat
  bufferAllocMin : Nat
  codecs : Option (List Codec)
  handler : JsValue → Except EncodingFailed (List Nat)

/-- The default configuration of the Encoder constructor. -/
def defaultCfg : EncoderConfig :=
  { bufferLenMin := 15, bufferAllocMin := 2048, codecs := none,
    handler := throwsEncoderHandler }

/-- The length-tiered string tag applied to the produced UTF-8 bytes: the tail of
Encoder.encodeStr after bin and len have been computed (fixstr, str 8, str 16,
str 32). -/
def strTagged (bin : List Nat) : List Nat :=
  let len := bin.length
  if len < 0x20 then
    (len ||| 0xa0) :: bin
  else if len < 0x100 then
    0xd9 :: len :: bin
  else if len < 0x10000 then
    0xda :: (len >>> 8) :: (len &&& 0xff) :: bin
  else
    0xdb :: (len >>> 24 &&& 0xff) :: (len >>> 16 &&& 0xff)
      :: (len >>> 8 &&& 0xff) :: (len &&& 0xff) :: bin

/-- Embedding of Encoder.encodeStr of src/dist/v8v62/cjs/Encoder.js
(lines 147-188), including the scratch-buffer state: the argument bufferAlloc is
this.bufferAlloc before the call and the second component of the result is
this.bufferAlloc after the call.  Strings shorter than bufferLenMin are converted
directly (utf8toBin); otherwise the string is written into the scratch buffer,
whose capacity is first grown to bufferAllocMin * (len >>> 10 | 2) whenever
len exceeds it. -/
def encodeStr (cfg : EncoderConfig) (bufferAlloc : Nat) (str : List Nat) :
    List Nat × Nat :=
  if str.length = 0 then ([0xa0], bufferAlloc)
  else if str.length < cfg.bufferLenMin then
    (strTagged (utf8Encode str), bufferAlloc)
  else
    let alloc := if str.length > bufferAlloc
      then cfg.bufferAllocMin * ((str.length >>> 10) ||| 2)
      else bufferAlloc
    (strTagged (utf8Write alloc str), alloc)

/-- Embedding of Encoder.encodeBin (lines 190-224 of the v8v62 variant): the
payload bytes are emitted unchanged (the source assembles them per byte below
length 7 and by latin1Slice otherwise, with identical result), behind the
bin 8 / bin 16 / bin 32 tag tiers; the empty buffer is the fixed pair c4 00. -/
def encodeBin (buf : List Nat) : List Nat :=
  if buf.length = 0 then [0xc4, 0x00]
  else if buf.length < 0x100 then
    0xc4 :: buf.length :: buf
  else if buf.length < 0x10000 then
    0xc5 :: (buf.length >>> 8) :: (buf.length &&& 0xff) :: buf
  else
    0xc6 :: (buf.length >>> 24 &&& 0xff) :: (buf.length >>> 16 &&& 0xff)
      :: (buf.length >>> 8 &&& 0xff) :: (buf.length &&& 0xff) :: buf

/-- Embedding of Encoder.encodeExt (lines 281-313 of the v8v62 variant): one byte
of type (masked to 7 bits) followed by the payload, behind fixext 1/2/4/8/16 for
exactly those payload sizes and the ext 8/16/32 tiers otherwise. -/
def encodeExt (type : Int) (bin : List Nat) : List Nat :=
  let ext := ((type.emod 4294967296).toNat &&& 0x7f) :: bin
  let len := bin.length
  if len = 1 then 0xd4 :: ext
  else if len = 2 then 0xd5 :: ext
  else if len = 4 then 0xd6 :: ext
  else if len = 8 then 0xd7 :: ext
  else if len = 16 then 0xd8 :: ext
  else if len < 0x100 then 0xc7 :: len :: ext
  else if len < 0x10000 then 0xc8 :: (len >>> 8) :: (len &&& 0xff) :: ext
  else
    0xc9 :: (len >>> 24 &&& 0xff) :: (len >>> 16 &&& 0xff)
      :: (len >>> 8 &&& 0xff) :: (len &&& 0xff) :: ext

/-- Modelled from the spec: the float encoder (selected by selectEncoderFloat in
the external encoders module) emits tag 0xcb followed by the 8 IEEE-754 float64
bytes, which this embedding carries opaquely. -/
def encodeFloat (bits : List Nat) : List Nat := 0xcb :: bits

/-- Modelled from the spec: encodeAscii (external encoders module), the default
object-key encoder; for ASCII keys each code unit is one byte, so it produces the
same tagged form as the general string encoder without the scratch buffer. -/
def encodeAscii (s : List Nat) : List Nat := strTagged s

/-- The count-tiered array header of Encoder.encodeArray (fixarray, array 16,
array 32). -/
def arrayHeader (len : Nat) : List Nat :=
  if len < 0x10 then [0x90 ||| len]
  else if len < 0x10000 then [0xdc, len >>> 8, len &&& 0xff]
  else
    [0xdd, len >>> 24 &&& 0xff, len >>> 16 &&& 0xff, len >>> 8 &&& 0xff,
     len &&& 0xff]

/-- The count-tiered map header of Encoder.encodeObject (fixmap, map 16,
map 32). -/
def mapHeader (len : Nat) : List Nat :=
  if len < 0x10 then [0x80 ||| len]
  else if len < 0x10000 then [0xde, len >>> 8, len &&& 0xff]
  else
    [0xdf, len >>> 24 &&& 0xff, len >>> 16 &&& 0xff, len >>> 8 &&& 0xff,
     len &&& 0xff]

/-- One step of the codec loop of Encoder.encode (lines 52-58 of the v8v62
variant): `let bin, i = this.codecs.length; while (i > 0) { bin =
this.codecs[i -= 1].encode(this, value); if (bin !== null) return bin; }`.
The Nat argument is the loop counter i; each iteration decrements it and calls
the codec at that index. -/
def codecWalkIdx (cs : List Codec) (v : JsValue) : Nat → Option (List Nat)
  | 0 => none
  | i + 1 =>
    match cs.get? i with
    | none => codecWalkIdx cs v i
    | some c =>
      match c v with
      | some bin => some bin
      | none => codecWalkIdx cs v i

/-- The codec loop started at i = this.codecs.length. -/
def codecWalk (cs : List Codec) (v : JsValue) : Option (List Nat) :=
  codecWalkIdx cs v cs.length

mutual

/-- Embedding of Encoder.encode of src/dist/v8v62/cjs/Encoder.js (lines 41-66):
dispatch on `typeof value`, with strings to encodeStr, integral numbers to
encodeInt (non-integral to the float encoder), null/array/buffer/Ext handled in
the object branch ahead of the codec walk and the generic object fallback,
booleans to the two fixed bytes, and everything else to the configured
unsupported-value handler.  The scratch-buffer capacity is threaded through as in
encodeStr; errors from the handler propagate. -/
def encodeV (cfg : EncoderConfig) (alloc : Nat) :
    JsValue → Except EncodingFailed (List Nat × Nat)
  | .vStr s => .ok (encodeStr cfg alloc s)
  | .vInt n => .ok (encodeInt n, alloc)
  | .vFloat bits => .ok (encodeFloat bits, alloc)
  | .vNull => .ok ([0xc0], alloc)
  | .vArr elems =>
    if elems.isEmpty then .ok ([0x90], alloc)
    else
      match encodeSeq cfg alloc elems with
      | .error e => .error e
      | .ok (body, a) => .ok (arrayHeader elems.length ++ body, a)
  | .vBuf bytes => .ok (encodeBin bytes, alloc)
  | .vExt t bin => .ok (encodeExt t bin, alloc)
  | .vObj props =>
    match cfg.codecs with
    | some cs =>
      match codecWalk cs (.vObj props) with
      | some bin => .ok (bin, alloc)
      | none =>
        if props.isEmpty then .ok ([0x80], alloc)
        else
          match encodeProps cfg alloc props with
          | .error e => .error e
          | .ok (body, a) => .ok (mapHeader props.length ++ body, a)
    | none =>
      if props.isEmpty then .ok ([0x80], alloc)
      else
        match encodeProps cfg alloc props with
        | .error e => .error e
        | .ok (body, a) => .ok (mapHeader props.length ++ body, a)
  | .vBool b => .ok ([if b then 0xc3 else 0xc2], alloc)
  | .vUndefined => Except.map (fun b => (b, alloc)) (cfg.handler .vUndefined)
  | .vFunc => Except.map (fun b => (b, alloc)) (cfg.handler .vFunc)
  | .vSymbol => Except.map (fun b => (b, alloc)) (cfg.handler .vSymbol)

/-- The element loop of Encoder.encodeArray: encode each element in order,
concatenating outputs and threading the scratch capacity. -/
def encodeSeq (cfg : EncoderConfig) (alloc : Nat) :
    List JsValue → Except EncodingFailed (List Nat × Nat)
  | [] => .ok ([], alloc)
  | v :: vs =>
    match encodeV cfg alloc v with
    | .error e => .error e
    | .ok (b, a) =>
      match encodeSeq cfg a vs with
      | .error e => .error e
      | .ok (bs, a2) => .ok (b ++ bs, a2)

/-- The key/value loop of Encoder.encodeObject: each enumerated key (encoded by
the default ASCII key encoder) immediately followed by its value's encoding. -/
def encodeProps (cfg : EncoderConfig) (alloc : Nat) :
    List (List Nat × JsValue) → Except EncodingFailed (List Nat × Nat)
  | [] => .ok ([], alloc)
  | (k, v) :: rest =>
    match encodeV cfg alloc v with
    | .error e => .error e
    | .ok (b, a) =>
      match encodeProps cfg a rest with
      | .error e => .error e
      | .ok (bs, a2) => .ok (encodeAscii k ++ b ++ bs, a2)

end

/-- Embedding of Encoder.encodeObject (lines 252-279 of the v8v62 variant) on an
object's enumerable properties: the generic-map fallback reached when no codec
claims the value. -/
def encodeObjectV (cfg : EncoderConfig) (alloc : Nat)
    (props : List (List Nat × JsValue)) : Except EncodingFailed (List Nat × Nat) :=
  if props.isEmpty then .ok ([0x80], alloc)
  else
    match encodeProps cfg alloc props with
    | .error e => .error e
    | .ok (body, a) => .ok (mapHeader props.length ++ body, a)

set_option maxRecDepth 40000

theorem le_mul_lor_two (n : Nat) : n ≤ 2048 * ((n >>> 10) ||| 2) := by
  have hshift : n >>> 10 = n / 1024 := by
    simp [Nat.shiftRight_eq_div_pow]
  rw [hshift]
  have hmod : 1024 * (n / 1024) + n % 1024 = n := Nat.div_add_mod n 1024
  have hr : n % 1024 < 1024 := Nat.mod_lt n (by norm_num)
  have hf4 : 4 * (n / 1024 / 4) + n / 1024 % 4 = n / 1024 := Nat.div_add_mod (n / 1024) 4
  have hr4 : n / 1024 % 4 < 4 := Nat.mod_lt (n / 1024) (by norm_num)
  have hkey : (n / 1024) ||| 2 = 4 * (n / 1024 / 4) + ((n / 1024 % 4) ||| 2) := by
    have e1 : (2 : Nat) ^ 2 = 4 := by norm_num
    have h1 := Nat.mul_add_lt_is_or (show n / 1024 % 4 < 2 ^ 2 by omega) (n / 1024 / 4)
    have h2 := Nat.mul_add_lt_is_or
      (show (n / 1024 % 4) ||| 2 < 2 ^ 2 from Nat.or_lt_two_pow (by omega) (by norm_num))
      (n / 1024 / 4)
    rw [e1] at h1 h2
    calc (n / 1024) ||| 2
        = (4 * (n / 1024 / 4) + n / 1024 % 4) ||| 2 := by rw [hf4]
      _ = (4 * (n / 1024 / 4) ||| n / 1024 % 4) ||| 2 := by rw [h1]
      _ = 4 * (n / 1024 / 4) ||| ((n / 1024 % 4) ||| 2) := Nat.or_assoc ..
      _ = 4 * (n / 1024 / 4) + ((n / 1024 % 4) ||| 2) := h2.symm
  have hx : (n / 1024 % 4) ||| 2 = 2 ∨ (n / 1024 % 4) ||| 2 = 3 := by
    rcases (show n / 1024 % 4 = 0 ∨ n / 1024 % 4 = 1 ∨ n / 1024 % 4 = 2 ∨ n / 1024 % 4 = 3 by
      omega) with h | h | h | h <;> rw [h] <;> decide
  omega

theorem writeChunks_of_fits (l : List (List Nat)) :
    ∀ cap : Nat, l.flatten.length ≤ cap → writeChunks cap l = l.flatten := by
  induction l with
  | nil => intro cap _; rfl
  | cons ch rest ih =>
    intro cap h
    rw [List.flatten_cons, List.length_append] at h
    rw [writeChunks, if_pos (by omega), List.flatten_cons,
      ih (cap - ch.length) (by omega)]

theorem utf8Write_of_fits (cap : Nat) (s : List Nat)
    (h : (utf8Encode s).length ≤ cap) : utf8Write cap s = utf8Encode s :=
  writeChunks_of_fits (utf8Chunks s) cap h

theorem encodeStr_fst_eq (cfg : EncoderConfig) (s : List Nat)
    (h : s.length < cfg.bufferLenMin ∨
      (utf8Encode s).length ≤ cfg.bufferAllocMin * ((s.length >>> 10) ||| 2)) :
    (encodeStr cfg 0 s).1 = strTagged (utf8Encode s) := by
  unfold encodeStr
  by_cases hz : s.length = 0
  · rw [if_pos hz]
    have hnil : s = [] := List.length_eq_zero.mp hz
    subst hnil
    decide
  · rw [if_neg hz]
    by_cases hf : s.length < cfg.bufferLenMin
    · rw [if_pos hf]
    · rw [if_neg hf]
      have hcap := h.resolve_left hf
      have hgrow : s.length > 0 := Nat.pos_of_ne_zero hz
      simp only [hgrow, if_pos]
      rw [utf8Write_of_fits _ _ hcap]

theorem codecWalkIdx_eq_findSome (cs : List Codec) (v : JsValue) :
    ∀ i : Nat, codecWalkIdx cs v i = ((cs.take i).reverse).findSome? (fun c => c v) := by
  intro i
  induction i with
  | zero => simp [codecWalkIdx]
  | succ i ih =>
    rw [codecWalkIdx]
    cases hg : cs.get? i with
    | none =>
      have hlen : cs.length ≤ i := by
        rw [← List.get?_eq_none]; exact hg
      rw [ih, List.take_of_length_le hlen,
        List.take_of_length_le (Nat.le_succ_of_le hlen)]
    | some c =>
      have hsucc : cs.take (i + 1) = cs.take i ++ [c] := by
        rw [List.take_succ]
        have : cs[i]? = some c := by rw [← List.get?_eq_getElem?]; exact hg
        rw [this, Option.toList_some]
      rw [hsucc, List.reverse_append, List.reverse_singleton, List.singleton_append,
        List.findSome?_cons]
      cases hcv : c v with
      | none =>
        simp only [hcv]
        exact ih
      | some bin =>
        simp only [hcv]

theorem codecWalk_eq_findSome (cs : List Codec) (v : JsValue) :
    codecWalk cs v = (cs.reverse).findSome? (fun c => c v) := by
  rw [codecWalk, codecWalkIdx_eq_findSome, List.take_length]

/-- C1: the claim asserts that encodeInt is mathematically exact on the int64
range down to -(2^53 - 1), in particular at exact multiples of 2^32.  At
n = -2^32 both encoder variants emit the int64 bytes of -2^33 (high word
ff ff ff fe instead of ff ff ff ff): the `- 1` correction applied to the
truncated division over-corrects exactly when num is a multiple of 2^32. -/
theorem C1_int64_multiple_bug :
    encodeInt (-4294967296) = [0xd3, 0xff, 0xff, 0xff, 0xfe, 0x00, 0x00, 0x00, 0x00] ∧
    encodeIntV862 (-4294967296) = [0xd3, 0xff, 0xff, 0xff, 0xfe, 0x00, 0x00, 0x00, 0x00] ∧
    [0xd3, 0xff, 0xff, 0xff, 0xfe, 0x00, 0x00, 0x00, 0x00] ≠
      [0xd3, 0xff, 0xff, 0xff, 0xff, 0x00, 0x00, 0x00, 0x00] := by
  refine ⟨by decide, by decide, by decide⟩

/-- C2: the claim asserts that the uint64 path emits the exact big-endian bytes
of n with high word floor(n / 2^32).  The source computes the high word as
`num >>> 11 | 1`; at n = 2^33 both variants emit high word 1 (the bytes of
2^32), not 2. -/
theorem C2_uint64_hi_bug :
    encodeInt 8589934592 = [0xcf, 0x00, 0x00, 0x00, 0x01, 0x00, 0x00, 0x00, 0x00] ∧
    encodeIntV862 8589934592 = [0xcf, 0x00, 0x00, 0x00, 0x01, 0x00, 0x00, 0x00, 0x00] ∧
    decodeMsgInt [0xcf, 0x00, 0x00, 0x00, 0x01, 0x00, 0x00, 0x00, 0x00] = some 4294967296 ∧
    (4294967296 : Int) ≠ 8589934592 := by
  refine ⟨by decide, by decide, by decide, by decide⟩

/-- C3 counterexample: the claim (0xcb and the infinity bit patterns for every
n < -(2^53 - 1) and every n >= 2^53) is false: the v8-6.2 variant emits tag 0xcf
with bytes 00 20 .. at n = 2^53, and at n = -2^53 (which the claim covers, since
-2^53 < -(2^53 - 1)) the v8v62 variant takes the int64 path, so its first byte
is 0xd3, not 0xcb. -/
theorem C3_counterexample :
    encodeIntV862 9007199254740992 ≠ [0xcb, 0x7f, 0xf0, 0x00, 0x00, 0x00, 0x00, 0x00, 0x00] ∧
    encodeInt (-9007199254740992) ≠ [0xcb, 0xff, 0xf0, 0x00, 0x00, 0x00, 0x00, 0x00, 0x00] := by
  refine ⟨by decide, by decide⟩

/-- C3 amended: for every n <= -(2^53 + 1) the v8v62/cjs variant returns 0xcb
followed by the float64 -Infinity bytes ff f0 00 00 00 00 00 00 while the v8-6.2
variant returns 0xd3 ff df ff ff ff ff ff ff; for every n >= 2^53 the v8v62/cjs
variant returns 0xcb followed by the +Infinity bytes 7f f0 00 00 00 00 00 00
while the v8-6.2 variant returns 0xcf 00 20 00 00 00 00 00 00.  (n = -2^53 itself
takes the int64 path in both variants.) -/
theorem C3_amended (n : Int) :
    (n < -9007199254740992 →
      encodeInt n = [0xcb, 0xff, 0xf0, 0x00, 0x00, 0x00, 0x00, 0x00, 0x00] ∧
      encodeIntV862 n = [0xd3, 0xff, 0xdf, 0xff, 0xff, 0xff, 0xff, 0xff, 0xff]) ∧
    (9007199254740992 ≤ n →
      encodeInt n = [0xcb, 0x7f, 0xf0, 0x00, 0x00, 0x00, 0x00, 0x00, 0x00] ∧
      encodeIntV862 n = [0xcf, 0x00, 0x20, 0x00, 0x00, 0x00, 0x00, 0x00, 0x00]) := by
  constructor
  · intro h
    constructor
    · unfold encodeInt
      rw [if_pos (show n < 0 by omega), if_neg (show ¬ n > -0x21 by omega),
        if_neg (show ¬ n > -0x81 by omega), if_neg (show ¬ n > -0x8001 by omega),
        if_neg (show ¬ n > -0x80000001 by omega),
        if_neg (show ¬ n > -0x20000000000001 by omega)]
    · unfold encodeIntV862
      rw [if_pos (show n < 0 by omega), if_neg (show ¬ n > -0x21 by omega),
        if_neg (show ¬ n > -0x81 by omega), if_neg (show ¬ n > -0x8001 by omega),
        if_neg (show ¬ n > -0x80000001 by omega),
        if_neg (show ¬ n > -0x20000000000001 by omega)]
  · intro h
    constructor
    · unfold encodeInt
      rw [if_neg (show ¬ n < 0 by omega), if_neg (show ¬ n < 0x80 by omega),
        if_neg (show ¬ n < 0x100 by omega), if_neg (show ¬ n < 0x10000 by omega),
        if_neg (show ¬ n < 0x100000000 by omega),
        if_neg (show ¬ n < 0x20000000000000 by omega)]
    · unfold encodeIntV862
      rw [if_neg (show ¬ n < 0 by omega), if_neg (show ¬ n < 0x80 by omega),
        if_neg (show ¬ n < 0x100 by omega), if_neg (show ¬ n < 0x10000 by omega),
        if_neg (show ¬ n < 0x100000000 by omega),
        if_neg (show ¬ n < 0x20000000000000 by omega)]

/-- C3 amended, witness: the amended theorem applied at n = -(2^53 + 1) and at
n = 2^53. -/
theorem C3_amended_witness :
    encodeInt (-9007199254740993) = [0xcb, 0xff, 0xf0, 0x00, 0x00, 0x00, 0x00, 0x00, 0x00] ∧
    encodeIntV862 9007199254740992 = [0xcf, 0x00, 0x20, 0x00, 0x00, 0x00, 0x00, 0x00, 0x00] :=
  ⟨((C3_amended (-9007199254740993)).1 (by decide)).1,
   ((C3_amended 9007199254740992).2 (by decide)).2⟩

/-- C4: the round-trip invariant fails inside the claimed scope: -2^32 is an
integer in the safe range, its encoding is the int64 message for -2^33 (see C1),
so the decoder modelled from the spec returns -2^33, not -2^32.  Encoder.encode
routes -2^32 (an integral number) to encodeInt. -/
theorem C4_roundtrip_failure :
    encodeV defaultCfg 0 (.vInt (-4294967296)) = .ok (encodeInt (-4294967296), 0) ∧
    decodeMsgInt (encodeInt (-4294967296)) = some (-8589934592) ∧
    (-8589934592 : Int) ≠ -4294967296 := by
  refine ⟨by simp [encodeV], by decide, by decide⟩

/-- C5 counterexample: on the scratch path with the default configuration and a
fresh encoder, a string of length 1024 grows the capacity to
2048 * (1024 >>> 10 | 2) = 6144, while the claimed formula
bufferAllocMin * max(2, ceil(1024 / 1024)) gives 4096. -/
theorem C5_counterexample :
    (encodeStr defaultCfg 0 (List.replicate 1024 97)).2 ≠
      defaultCfg.bufferAllocMin *
        (max 2 (((List.replicate 1024 97).length + 1023) / 1024)) := by
  decide

/-- C5 amended: whenever Encoder.encodeStr takes the scratch-buffer path and the
string length exceeds the current capacity, the newly allocated capacity equals
bufferAllocMin * ((len >>> 10) | 2), the bitwise or of floor(len / 1024) with 2
(not max(2, ceil(len / 1024))). -/
theorem C5_amended (cfg : EncoderConfig) (bufferAlloc : Nat) (s : List Nat)
    (h0 : s.length ≠ 0) (h1 : ¬ s.length < cfg.bufferLenMin)
    (h2 : bufferAlloc < s.length) :
    (encodeStr cfg bufferAlloc s).2 =
      cfg.bufferAllocMin * ((s.length >>> 10) ||| 2) := by
  unfold encodeStr
  rw [if_neg h0, if_neg h1]
  simp only [gt_iff_lt, h2, if_pos]

/-- C5 amended, witness: the amended growth formula evaluated on the default
configuration and a 1024-character string. -/
theorem C5_amended_witness :
    (encodeStr defaultCfg 0 (List.replicate 1024 97)).2 =
      defaultCfg.bufferAllocMin * (((List.replicate 1024 97).length >>> 10) ||| 2) :=
  C5_amended defaultCfg 0 (List.replicate 1024 97) (by decide) (by decide) (by decide)

/-- C6 counterexample: scratch-buffer settings can change encodeStr output.  With
bufferAllocMin = 0 the scratch path allocates a zero-capacity buffer, utf8Write
writes nothing, and a 15-character string encodes as the empty fixstr a0, while
the default configuration encodes it as af followed by the 15 bytes. -/
theorem C6_counterexample :
    (encodeStr defaultCfg 0 (List.replicate 15 97)).1 ≠
      (encodeStr { defaultCfg with bufferAllocMin := 0 } 0 (List.replicate 15 97)).1 := by
  decide

/-- C6 amended: encodeStr output is independent of the scratch-buffer settings
provided each instance either takes the short-string path or allocates a scratch
capacity of at least the string's UTF-8 byte length; under that proviso any two
fresh instances produce identical bytes for the same string. -/
theorem C6_amended (cfg1 cfg2 : EncoderConfig) (s : List Nat)
    (h1 : s.length < cfg1.bufferLenMin ∨
      (utf8Encode s).length ≤ cfg1.bufferAllocMin * ((s.length >>> 10) ||| 2))
    (h2 : s.length < cfg2.bufferLenMin ∨
      (utf8Encode s).length ≤ cfg2.bufferAllocMin * ((s.length >>> 10) ||| 2)) :
    (encodeStr cfg1 0 s).1 = (encodeStr cfg2 0 s).1 := by
  rw [encodeStr_fst_eq cfg1 s h1, encodeStr_fst_eq cfg2 s h2]

/-- C6 amended, witness: two configurations differing in both scratch settings
produce the same bytes for a 15-character ASCII string. -/
theorem C6_amended_witness :
    (encodeStr defaultCfg 0 (List.replicate 15 97)).1 =
      (encodeStr { defaultCfg with bufferLenMin := 16, bufferAllocMin := 4096 } 0
        (List.replicate 15 97)).1 :=
  C6_amended defaultCfg { defaultCfg with bufferLenMin := 16, bufferAllocMin := 4096 }
    (List.replicate 15 97) (by decide) (by decide)

/-- C7 counterexample: with bufferLenMin = 1 and bufferAllocMin = 1, a
1024-character string sets the capacity to 1 * (1024 >>> 10 | 2) = 3, and a
subsequent 4-character string (4 > 3) re-allocates it to 1 * (4 >>> 10 | 2) = 2:
the capacity shrinks from 3 to 2. -/
theorem C7_counterexample :
    (encodeStr { defaultCfg with bufferLenMin := 1, bufferAllocMin := 1 }
      ((encodeStr { defaultCfg with bufferLenMin := 1, bufferAllocMin := 1 } 0
        (List.replicate 1024 97)).2)
      (List.replicate 4 97)).2 <
    (encodeStr { defaultCfg with bufferLenMin := 1, bufferAllocMin := 1 } 0
      (List.replicate 1024 97)).2 := by
  decide

/-- C7 amended: for every configuration with bufferAllocMin >= 2048 (the default
is 2048), each encodeStr call leaves the scratch capacity greater than or equal
to its value before the call, so over any sequence of encode calls the capacity
never shrinks; with smaller bufferAllocMin values it can shrink. -/
theorem C7_amended (cfg : EncoderConfig) (bufferAlloc : Nat) (s : List Nat)
    (h : 2048 ≤ cfg.bufferAllocMin) :
    bufferAlloc ≤ (encodeStr cfg bufferAlloc s).2 := by
  unfold encodeStr
  by_cases hz : s.length = 0
  · rw [if_pos hz]
  · rw [if_neg hz]
    by_cases hf : s.length < cfg.bufferLenMin
    · rw [if_pos hf]
    · rw [if_neg hf]
      by_cases hg : bufferAlloc < s.length
      · simp only [gt_iff_lt, hg, if_pos]
        have k1 := le_mul_lor_two s.length
        have k2 : 2048 * ((s.length >>> 10) ||| 2) ≤
            cfg.bufferAllocMin * ((s.length >>> 10) ||| 2) :=
          Nat.mul_le_mul_right _ h
        omega
      · simp only [gt_iff_lt, hg, if_neg, if_false]
        omega

/-- C7 amended, witness: monotonicity at the default configuration, starting
capacity 5, on a 20-character string. -/
theorem C7_amended_witness : 5 ≤ (encodeStr defaultCfg 5 (List.replicate 20 97)).2 :=
  C7_amended defaultCfg 5 (List.replicate 20 97) (by decide)

/-- C8: when encode reaches the codec registry (a non-null object that is not an
array, buffer or Ext, i.e. a vObj value), the configured codecs are consulted
from the end of the list (the most recently registered) toward the start, each
codec's encode is called and the first non-null result is returned; if every
codec returns null the value is encoded as a generic map of its enumerable
properties (encodeObjectV). -/
theorem C8_codec_order (cfg : EncoderConfig) (cs : List Codec) (alloc : Nat)
    (props : List (List Nat × JsValue)) :
    encodeV { cfg with codecs := some cs } alloc (.vObj props) =
      match (cs.reverse).findSome? (fun c => c (.vObj props)) with
      | some bin => .ok (bin, alloc)
      | none => encodeObjectV { cfg with codecs := some cs } alloc props := by
  rw [show encodeObjectV { cfg with codecs := some cs } alloc props =
      (if props.isEmpty then .ok ([0x80], alloc)
       else
         match encodeProps { cfg with codecs := some cs } alloc props with
         | .error e => .error e
         | .ok (body, a) => .ok (mapHeader props.length ++ body, a)) from rfl]
  simp only [encodeV]
  rw [codecWalk_eq_findSome]

/-- C9: the integer tag-tier boundaries are exact in both encoder variants:
127 encodes as the single byte 7f, 128 as cc 80, -1 as ff, and -33 as d0 df. -/
theorem C9_boundaries :
    encodeInt 127 = [0x7f] ∧ encodeInt 128 = [0xcc, 0x80] ∧
    encodeInt (-1) = [0xff] ∧ encodeInt (-33) = [0xd0, 0xdf] ∧
    encodeIntV862 127 = [0x7f] ∧ encodeIntV862 128 = [0xcc, 0x80] ∧
    encodeIntV862 (-1) = [0xff] ∧ encodeIntV862 (-33) = [0xd0, 0xdf] := by
  refine ⟨by decide, by decide, by decide, by decide, by decide, by decide,
    by decide, by decide⟩

/-- C10: a value whose typeof is none of string, number, boolean, object falls
into the default branch of the dispatch switch, which calls the configured
unsupported-value handler without consulting the codec registry: the result is
the handler's, for every codecs configuration, and with the default throwing
handler it is the EncodingFailed error carrying the value and its typeof kind. -/
theorem C10_unsupported_bypasses_codecs (cfg : EncoderConfig)
    (ocs : Option (List Codec)) (alloc : Nat) (v : JsValue)
    (h1 : typeofStr v ≠ "string") (h2 : typeofStr v ≠ "number")
    (h3 : typeofStr v ≠ "boolean") (h4 : typeofStr v ≠ "object") :
    encodeV { cfg with codecs := ocs } alloc v =
      Except.map (fun b => (b, alloc)) (cfg.handler v) ∧
    encodeV { cfg with codecs := ocs, handler := throwsEncoderHandler } alloc v =
      .error (EncodingFailed.withValue v) := by
  cases v <;>
    simp_all [typeofStr, encodeV, throwsEncoderHandler, Except.map]

/-- C10 witness: undefined, with a codec registry configured whose only codec
would claim anything, still produces the EncodingFailed error. -/
theorem C10_witness :
    encodeV { defaultCfg with
        codecs := some [fun _ => some [0x00]]
        handler := throwsEncoderHandler } 0 .vUndefined =
      .error (EncodingFailed.withValue .vUndefined) :=
  (C10_unsupported_bypasses_codecs defaultCfg (some [fun _ => some [0x00]]) 0
    .vUndefined (by decide) (by decide) (by decide) (by decide)).2
